import Mathlib

/-!
Verification of the day-20 pulse-network simulator
(`src/days/day20.rs` of `advent-of-code-2023`).

The Rust code is shallowly embedded: every mutable method becomes a pure
function returning the updated value, the `VecDeque<Signal>` queue becomes a
`List Signal` popped at the head and appended at the tail, and the two
unbounded `loop`/`while` constructs (`process_queue`, `compute_pulses`,
`button_presses_before_low_output`) become fuel-indexed recursions returning
`none` when the fuel runs out.  `HashMap<String, SignalState>` is embedded as
an association list with overwrite-in-place insertion; iteration order of the
Rust map is unspecified, the list fixes it to insertion order (the order in
which `register_input` was called), which is the only order the program ever
constructs.
-/

set_option maxRecDepth 100000
set_option maxHeartbeats 1000000

namespace Day20

/-- `SignalState` from day20.rs: the two pulse levels. -/
inductive SignalState
  | Low
  | High
deriving DecidableEq, Repr

/-- `Signal` from day20.rs: one directed pulse. -/
structure Signal where
  source : String
  destination : String
  state : SignalState
deriving DecidableEq, Repr

/-- `SignalHistory` from day20.rs: the running low/high counters. -/
structure SignalHistory where
  low : Nat
  high : Nat
deriving DecidableEq, Repr

instance : Inhabited SignalHistory := ⟨⟨0, 0⟩⟩

/-- `Broadcaster` from day20.rs. -/
structure Broadcaster where
  outputs : List String
deriving DecidableEq, Repr

/-- `FlipFlop` from day20.rs; `state` is `Low` for off, `High` for on. -/
structure FlipFlop where
  name : String
  state : SignalState
  outputs : List String
deriving DecidableEq, Repr

/-- `Conjunction` from day20.rs; `state` embeds the `HashMap` of
last-received levels per input name as an association list. -/
structure Conjunction where
  name : String
  state : List (String × SignalState)
  outputs : List String
deriving DecidableEq, Repr

/-- `HashMap::insert`: overwrite the value when the key is present,
append the binding otherwise. -/
def mapInsert (k : String) (v : SignalState) :
    List (String × SignalState) → List (String × SignalState)
  | [] => [(k, v)]
  | (k', v') :: rest =>
    if k' = k then (k, v) :: rest else (k', v') :: mapInsert k v rest

/-- Key set of the embedded map (the `HashMap` key set). -/
def mapKeys (m : List (String × SignalState)) : List String :=
  m.map Prod.fst

/-- `Module` from day20.rs: the closed variant type. -/
inductive Module
  | broadcaster (b : Broadcaster)
  | flipFlop (f : FlipFlop)
  | conjunction (c : Conjunction)
deriving DecidableEq, Repr

/-- `Broadcaster::process`: relay the received level to every output. -/
def Broadcaster.process (b : Broadcaster) (signal : Signal) : List Signal :=
  b.outputs.map fun o =>
    { source := "broadcaster", destination := o, state := signal.state }

/-- `FlipFlop::process`: ignore `High`; on `Low` toggle and emit the new
state to every output. -/
def FlipFlop.process (f : FlipFlop) (signal : Signal) :
    FlipFlop × List Signal :=
  match signal.state with
  | SignalState.High => (f, [])
  | SignalState.Low =>
    let newState := match f.state with
      | SignalState.Low => SignalState.High
      | SignalState.High => SignalState.Low
    ({ f with state := newState },
     f.outputs.map fun o =>
       { source := f.name, destination := o, state := newState })

/-- `Conjunction::process`: record the incoming level under the sender's
name, then emit `Low` when every recorded level is `High`, else `High`. -/
def Conjunction.process (c : Conjunction) (signal : Signal) :
    Conjunction × List Signal :=
  let st := mapInsert signal.source signal.state c.state
  let out := if st.all (fun p => p.2 == SignalState.High)
    then SignalState.Low else SignalState.High
  ({ c with state := st },
   c.outputs.map fun o =>
     { source := c.name, destination := o, state := out })

/-- `Conjunction::register_input`: insert the input with initial `Low`. -/
def Conjunction.registerInput (c : Conjunction) (input : String) : Conjunction :=
  { c with state := mapInsert input SignalState.Low c.state }

/-- `Module::get_name`. -/
def Module.getName : Module → String
  | Module.broadcaster _ => "broadcaster"
  | Module.flipFlop f => f.name
  | Module.conjunction c => c.name

/-- `Module::get_outputs`. -/
def Module.getOutputs : Module → List String
  | Module.broadcaster b => b.outputs
  | Module.flipFlop f => f.outputs
  | Module.conjunction c => c.outputs

/-- `Module::process`. -/
def Module.process : Module → Signal → Module × List Signal
  | Module.broadcaster b, signal => (Module.broadcaster b, b.process signal)
  | Module.flipFlop f, signal =>
    let (f', out) := f.process signal
    (Module.flipFlop f', out)
  | Module.conjunction c, signal =>
    let (c', out) := c.process signal
    (Module.conjunction c', out)

/-- `Module::register_input`: only a conjunction records its inputs. -/
def Module.registerInput : Module → String → Module
  | Module.conjunction c, input => Module.conjunction (c.registerInput input)
  | m, _ => m

/-- `Module::get_state`: the per-module state used in snapshots. -/
def Module.getState : Module → String × List (String × SignalState)
  | Module.broadcaster _ => ("broadcaster", [])
  | Module.flipFlop f => (f.name, [("state", f.state)])
  | Module.conjunction c => (c.name, c.state)

/-- `SignalSystem` from day20.rs; the `VecDeque` queue is a list popped at
the head. -/
structure SignalSystem where
  modules : List Module
  history : SignalHistory
  signals : List Signal
deriving DecidableEq, Repr

instance : Inhabited SignalSystem := ⟨⟨[], ⟨0, 0⟩, []⟩⟩

/-- The history update of the drain loop: count the popped signal once,
according to its level. -/
def countSignal (h : SignalHistory) (signal : Signal) : SignalHistory :=
  match signal.state with
  | SignalState.Low => { h with low := h.low + 1 }
  | SignalState.High => { h with high := h.high + 1 }

/-- `get_module_mut` + in-place `process`: deliver the signal to the first
module whose name matches the destination, returning the updated module
list and the produced signals; an unmatched destination leaves the list
unchanged and produces nothing. -/
def deliver (signal : Signal) : List Module → List Module × List Signal
  | [] => ([], [])
  | m :: rest =>
    if m.getName = signal.destination then
      let (m', out) := m.process signal
      (m' :: rest, out)
    else
      let (rest', out) := deliver signal rest
      (m :: rest', out)

/-- `SignalSystem::process_queue`, fuel-indexed.  `onSignal` embeds the
`impl FnMut(&Signal)` callback as a fold over an accumulator.  Each step
pops the head of the queue, updates the counters, invokes the callback,
delivers to the destination module if it exists and appends the produced
signals at the tail; the loop returns when the queue is empty. -/
def processQueue {α : Type} (onSignal : α → Signal → α) :
    Nat → SignalSystem → α → Option (SignalSystem × α)
  | 0, _, _ => none
  | fuel + 1, sys, a =>
    match sys.signals with
    | [] => some (sys, a)
    | signal :: rest =>
      let h := countSignal sys.history signal
      let a' := onSignal a signal
      let (mods, produced) := deliver signal sys.modules
      processQueue onSignal fuel
        { modules := mods, history := h, signals := rest ++ produced } a'

/-- The synthetic button signal of `press_button`. -/
def buttonSignal : Signal :=
  { source := "button", destination := "broadcaster", state := SignalState.Low }

/-- `SignalSystem::queue_signal`. -/
def queueSignal (sys : SignalSystem) (signal : Signal) : SignalSystem :=
  { sys with signals := sys.signals ++ [signal] }

/-- `SignalSystem::press_button` (callback doing nothing). -/
def pressButton (fuel : Nat) (sys : SignalSystem) : Option SignalSystem :=
  (processQueue (fun u _ => u) fuel (queueSignal sys buttonSignal) ()).map
    Prod.fst

/-- `SignalSystem::press_button_with_callback`. -/
def pressButtonWith {α : Type} (onSignal : α → Signal → α) (fuel : Nat)
    (sys : SignalSystem) (a : α) : Option (SignalSystem × α) :=
  processQueue onSignal fuel (queueSignal sys buttonSignal) a

/-- `press_button` iterated: `n` sequential presses. -/
def pressN (fuel : Nat) : Nat → SignalSystem → Option SignalSystem
  | 0, sys => some sys
  | n + 1, sys =>
    match pressButton fuel sys with
    | none => none
    | some sys' => pressN fuel n sys'

/-- The per-module part of a snapshot. -/
abbrev ModuleState := String × List (String × SignalState)

/-- The snapshot type returned by `get_state`: per-module states paired
with the counters of the most recent press. -/
abbrev Snapshot := List ModuleState × SignalHistory

/-- `SignalSystem::get_and_clear_history`. -/
def getAndClearHistory (sys : SignalSystem) : SignalHistory × SignalSystem :=
  (sys.history, { sys with history := ⟨0, 0⟩ })

/-- `SignalSystem::get_state`: all module states plus the counters, which
are cleared in the system. -/
def getState (sys : SignalSystem) : Snapshot × SignalSystem :=
  let (h, sys') := getAndClearHistory sys
  ((sys.modules.map Module.getState, h), sys')

/-- The fold `fold(SignalHistory::default(), |acc, c| ...)` summing a list
of per-press counters, as written in `compute_pulses`. -/
def sumHistories (l : List SignalHistory) : SignalHistory :=
  l.foldl (fun acc c => { low := acc.low + c.low, high := acc.high + c.high })
    ⟨0, 0⟩

/-- The `during_loop` fold of `compute_pulses`: each entry is scaled by the
number of full loops while summing. -/
def sumHistoriesScaled (n : Nat) (l : List SignalHistory) : SignalHistory :=
  l.foldl
    (fun acc c => { low := acc.low + c.low * n, high := acc.high + c.high * n })
    ⟨0, 0⟩

/-- The cycle search of `compute_pulses`:
`seen_states.iter().position(|s| current_state.eq(s))`.  The compared
values are whole snapshots — per-module states *and* counters. -/
def snapshotMatch (seenStates : List Snapshot) (currentState : Snapshot) :
    Option Nat :=
  seenStates.findIdx? fun s => currentState == s

/-- The total computed by `compute_pulses` once a match at `offset` is
found in the log: prefix sum of the first `offset` entries, plus one
period's sum scaled by `1000 / loop_size` full loops, plus the first
`1000 % loop_size` entries of the cyclic segment. -/
def loopTotal (seenStates : List Snapshot) (offset : Nat) : SignalHistory :=
  let loopSize := seenStates.length - offset
  let beforeLoop := sumHistories ((seenStates.take offset).map Prod.snd)
  let fullLoops := 1000 / loopSize
  let duringLoop :=
    sumHistoriesScaled fullLoops ((seenStates.drop offset).map Prod.snd)
  let remainder := 1000 % loopSize
  let afterLoop :=
    sumHistories (((seenStates.drop offset).take remainder).map Prod.snd)
  { low := beforeLoop.low + duringLoop.low + afterLoop.low,
    high := beforeLoop.high + duringLoop.high + afterLoop.high }

/-- The main loop of `compute_pulses`: snapshot, search the log for a
match, on a match return the extrapolated product, otherwise push the
snapshot, stop with the plain sum when the log reaches 1000 entries, else
press the button again.  `outerFuel` bounds the loop iterations (the code
loops unboundedly; 1001 iterations always suffice, see `c5` below). -/
def computeLoop (innerFuel : Nat) :
    Nat → SignalSystem → List Snapshot → Option Nat
  | 0, _, _ => none
  | outerFuel + 1, sys, seenStates =>
    let (currentState, sys') := getState sys
    match snapshotMatch seenStates currentState with
    | some offset =>
      let total := loopTotal seenStates offset
      some (total.low * total.high)
    | none =>
      let seen' := seenStates ++ [currentState]
      if seen'.length = 1000 then
        let total := sumHistories (seen'.map Prod.snd)
        some (total.low * total.high)
      else
        match pressButton innerFuel sys' with
        | none => none
        | some sys'' => computeLoop innerFuel outerFuel sys'' seen'

/-- `SignalSystem::compute_pulses`: one initial press, then the loop. -/
def computePulses (outerFuel innerFuel : Nat) (sys : SignalSystem) :
    Option Nat :=
  match pressButton innerFuel sys with
  | none => none
  | some sys' => computeLoop innerFuel outerFuel sys' []

/-- Modelled from the spec: `crate::util::number::lcm` is used by day20 but
`src/util/number.rs` is not part of the sources; the spec calls it the
least common multiple, which is `Nat.lcm`. -/
def lcm (a b : Nat) : Nat := Nat.lcm a b

/-- The four `Option<usize>` loop registers of
`button_presses_before_low_output`. -/
structure LoopRecord where
  ssLoop : Option Nat
  fzLoop : Option Nat
  mfLoop : Option Nat
  fhLoop : Option Nat
deriving DecidableEq, Repr

/-- The callback of `button_presses_before_low_output`: on every `High`
signal from one of the four watched sources, overwrite that register with
the current press count. -/
def recordHighSignal (presses : Nat) (r : LoopRecord) (s : Signal) :
    LoopRecord :=
  match s.source, s.state with
  | "ss", SignalState.High => { r with ssLoop := some presses }
  | "fz", SignalState.High => { r with fzLoop := some presses }
  | "mf", SignalState.High => { r with mfLoop := some presses }
  | "fh", SignalState.High => { r with fhLoop := some presses }
  | _, _ => r

/-- `Option::and` from Rust. -/
def optAnd {α β : Type} (a : Option α) (b : Option β) : Option β :=
  match a with
  | none => none
  | some _ => b

/-- The `while` loop of `button_presses_before_low_output`: keep pressing
(with the recording callback) while any register is `none`; once all four
are set, return the nested `lcm` of the recorded counts.  The Rust loop
has no iteration ceiling; `outerFuel` only makes the embedding total. -/
def pressLoop (innerFuel : Nat) :
    Nat → SignalSystem → Nat → LoopRecord → Option Nat
  | 0, _, _, _ => none
  | outerFuel + 1, sys, presses, r =>
    if (optAnd (optAnd (optAnd r.ssLoop r.fzLoop) r.mfLoop) r.fhLoop).isNone
    then
      let presses' := presses + 1
      match pressButtonWith (recordHighSignal presses') innerFuel sys r with
      | none => none
      | some (sys', r') => pressLoop innerFuel outerFuel sys' presses' r'
    else
      match r.ssLoop, r.fzLoop, r.mfLoop, r.fhLoop with
      | some ss, some fz, some mf, some fh =>
        some (lcm (lcm ss fz) (lcm mf fh))
      | _, _, _, _ => none

/-- `SignalSystem::button_presses_before_low_output`. -/
def buttonPressesBeforeLowOutput (outerFuel innerFuel : Nat)
    (sys : SignalSystem) : Option Nat :=
  pressLoop innerFuel outerFuel sys 0 ⟨none, none, none, none⟩

/-- `str::split` on the two-character pattern of the module grammar
(`"->"`): left-to-right, non-overlapping, written by structural recursion
on the character list so that it reduces in the kernel. -/
def splitOn2 (c₁ c₂ : Char) : List Char → List (List Char)
  | [] => [[]]
  | [c] => [[c]]
  | c :: c' :: rest =>
    if c = c₁ ∧ c' = c₂ then
      [] :: splitOn2 c₁ c₂ rest
    else
      match splitOn2 c₁ c₂ (c' :: rest) with
      | [] => [[c]]
      | part :: parts => (c :: part) :: parts

/-- `str::split` on a single character (the output-list separator). -/
def splitOn1 (sep : Char) : List Char → List (List Char)
  | [] => [[]]
  | c :: rest =>
    if c = sep then [] :: splitOn1 sep rest
    else
      match splitOn1 sep rest with
      | [] => [[c]]
      | part :: parts => (c :: part) :: parts

/-- The whitespace recognised by `str::trim` (restricted to the ASCII
whitespace that can occur in the module grammar). -/
def isWS (c : Char) : Bool :=
  c = ' ' || c = '\t' || c = '\n' || c = '\r'

/-- `str::trim` over the character list. -/
def trimChars (cs : List Char) : List Char :=
  ((cs.dropWhile isWS).reverse.dropWhile isWS).reverse

/-- The result of `s.split("->")` as strings. -/
def splitArrow (s : String) : List (List Char) :=
  splitOn2 '-' '>' s.data

/-- `Module::from_str`.  The outer `Option` models the panic of the byte
slice `&label_str[0..1]` on an empty label (a line such as `-> x`): `none`
is a panic, `some (Except.error _)` the surfaced `Err`.  Character-level
abstractions: the first *byte* test of the Rust code is a first-character
test here, and the Rust error messages additionally quote the offending
text. -/
def Module.fromStr (s : String) : Option (Except String Module) :=
  match splitArrow s with
  | [label, outputsPart] =>
    let labelStr := trimChars label
    let outputsStr := trimChars outputsPart
    let outs := (splitOn1 ',' outputsStr).map
      (fun p => (⟨trimChars p⟩ : String))
    match labelStr with
    | [] => none
    | c :: nameChars =>
      if c = '%' then
        some (Except.ok (Module.flipFlop
          { name := ⟨nameChars⟩, state := SignalState.Low, outputs := outs }))
      else if c = '&' then
        some (Except.ok (Module.conjunction
          { name := ⟨nameChars⟩, state := [], outputs := outs }))
      else if (⟨labelStr⟩ : String) = "broadcaster" then
        some (Except.ok (Module.broadcaster { outputs := outs }))
      else
        some (Except.error ("Invalid module: " ++ (⟨labelStr⟩ : String)))
  | _ => some (Except.error ("Invalid module line " ++ s))

/-- The parsing loop of `SignalSystem::from_str`: parse each line in order,
the first `Err` aborting the whole construction (`?` operator). -/
def parseModules : List String → Option (Except String (List Module))
  | [] => some (Except.ok [])
  | line :: rest =>
    match Module.fromStr line with
    | none => none
    | some (Except.error e) => some (Except.error e)
    | some (Except.ok m) =>
      match parseModules rest with
      | none => none
      | some (Except.error e) => some (Except.error e)
      | some (Except.ok ms) => some (Except.ok (m :: ms))

/-- The registration of one parsed module: for each of its outputs, the
first module of that name (if any) records it as an input. -/
def registerTarget (name input : String) : List Module → List Module
  | [] => []
  | m :: rest =>
    if m.getName = name then m.registerInput input :: rest
    else m :: registerTarget name input rest

/-- One iteration of the registration post-pass of
`SignalSystem::from_str`. -/
def registerModule (mods : List Module) (m : Module) : List Module :=
  m.getOutputs.foldl (fun acc output => registerTarget output m.getName acc)
    mods

/-- The registration post-pass: iterate over the cloned (pre-pass) module
list, registering each module as an input of every existing module it
outputs to. -/
def registerInputs (mods : List Module) : List Module :=
  mods.foldl registerModule mods

/-- `SignalSystem::from_str`, taking the result of `s.lines()` as a list
of lines.  `none` models a panic inside `Module::from_str`. -/
def SignalSystem.fromLines (lines : List String) :
    Option (Except String SignalSystem) :=
  match parseModules lines with
  | none => none
  | some (Except.error e) => some (Except.error e)
  | some (Except.ok mods) =>
    some (Except.ok
      { modules := registerInputs mods, history := ⟨0, 0⟩, signals := [] })

/-- Observation apparatus: the log of the first `n` snapshots, pressing
the button before each one exactly as the `compute_pulses` loop does. -/
def snapshotLog (fuel : Nat) : Nat → SignalSystem → Option (List Snapshot)
  | 0, _ => some []
  | n + 1, sys =>
    match pressButton fuel sys with
    | none => none
    | some sys' =>
      let (snap, sys'') := getState sys'
      match snapshotLog fuel n sys'' with
      | none => none
      | some rest => some (snap :: rest)

/-- A collecting callback for `press_button_with_callback`: every signal
popped by the drain loop, in order. -/
def collectSignals (acc : List Signal) (s : Signal) : List Signal :=
  acc ++ [s]

/-- Observation apparatus: the signals of each of the first `n` presses,
via the collecting callback. -/
def traceN (fuel : Nat) : Nat → SignalSystem → Option (List (List Signal))
  | 0, _ => some []
  | n + 1, sys =>
    match pressButtonWith collectSignals fuel sys [] with
    | none => none
    | some (sys', sigs) =>
      match traceN fuel n sys' with
      | none => none
      | some rest => some (sigs :: rest)

/-- Whether the watched source `w` emitted a `High` signal in a press
trace. -/
def emitsHigh (w : String) (sigs : List Signal) : Bool :=
  sigs.any fun s => s.source == w && s.state == SignalState.High

/-- The first test network of day20.rs (`TEST_SYSTEM_1`), as parsed and
registered (`&inv` got its single input `c`). -/
def test1 : SignalSystem :=
  { modules :=
      [Module.broadcaster ⟨["a", "b", "c"]⟩,
       Module.flipFlop ⟨"a", SignalState.Low, ["b"]⟩,
       Module.flipFlop ⟨"b", SignalState.Low, ["c"]⟩,
       Module.flipFlop ⟨"c", SignalState.Low, ["inv"]⟩,
       Module.conjunction ⟨"inv", [("c", SignalState.Low)], ["a"]⟩],
    history := ⟨0, 0⟩, signals := [] }

/-- The second test network of day20.rs (`TEST_SYSTEM_2`), as parsed and
registered. -/
def test2 : SignalSystem :=
  { modules :=
      [Module.broadcaster ⟨["a"]⟩,
       Module.flipFlop ⟨"a", SignalState.Low, ["inv", "con"]⟩,
       Module.conjunction ⟨"inv", [("a", SignalState.Low)], ["b"]⟩,
       Module.flipFlop ⟨"b", SignalState.Low, ["con"]⟩,
       Module.conjunction
         ⟨"con", [("a", SignalState.Low), ("b", SignalState.Low)], ["output"]⟩],
    history := ⟨0, 0⟩, signals := [] }

/-- A nine-module network on which the snapshot sequence has a transient:
`x` and `x2` are never fed, so `c` and `w` always emit `High` when they
fire, and `g` (fed by both) is all-high from press 2 on.  The module
states of presses 2 and 6 coincide while their counters differ, and the
first whole-snapshot match pairs presses 3 and 7: `compute_pulses` finds
offset 2, period 4.  (The registered form of the lines
`broadcaster -> a, b1 / %a -> c / %x -> c / &c -> g / %b1 -> b2 /
%b2 -> w / %x2 -> w / &w -> g / &g -> out`.) -/
def cycleNet : SignalSystem :=
  { modules :=
      [Module.broadcaster ⟨["a", "b1"]⟩,
       Module.flipFlop ⟨"a", SignalState.Low, ["c"]⟩,
       Module.flipFlop ⟨"x", SignalState.Low, ["c"]⟩,
       Module.conjunction
         ⟨"c", [("a", SignalState.Low), ("x", SignalState.Low)], ["g"]⟩,
       Module.flipFlop ⟨"b1", SignalState.Low, ["b2"]⟩,
       Module.flipFlop ⟨"b2", SignalState.Low, ["w"]⟩,
       Module.flipFlop ⟨"x2", SignalState.Low, ["w"]⟩,
       Module.conjunction
         ⟨"w", [("b2", SignalState.Low), ("x2", SignalState.Low)], ["g"]⟩,
       Module.conjunction
         ⟨"g", [("c", SignalState.Low), ("w", SignalState.Low)], ["out"]⟩],
    history := ⟨0, 0⟩, signals := [] }

/-- A network for the targeted extrapolator whose watched detectors
`ss`, `mf`, `fh` emit `High` on every odd press (first press 1) and whose
`fz` first emits `High` at press 4.  (The registered form of the lines
`broadcaster -> a, b / %a -> e / &e -> ss, mf, fh / &ss -> out /
&mf -> out / &fh -> out / %b -> b2 / %b2 -> fz / &fz -> out`.) -/
def watchNet : SignalSystem :=
  { modules :=
      [Module.broadcaster ⟨["a", "b"]⟩,
       Module.flipFlop ⟨"a", SignalState.Low, ["e"]⟩,
       Module.conjunction
         ⟨"e", [("a", SignalState.Low)], ["ss", "mf", "fh"]⟩,
       Module.conjunction ⟨"ss", [("e", SignalState.Low)], ["out"]⟩,
       Module.conjunction ⟨"mf", [("e", SignalState.Low)], ["out"]⟩,
       Module.conjunction ⟨"fh", [("e", SignalState.Low)], ["out"]⟩,
       Module.flipFlop ⟨"b", SignalState.Low, ["b2"]⟩,
       Module.flipFlop ⟨"b2", SignalState.Low, ["fz"]⟩,
       Module.conjunction ⟨"fz", [("b2", SignalState.Low)], ["out"]⟩],
    history := ⟨0, 0⟩, signals := [] }

/-- The modules of the one-broadcaster network `broadcaster -> out`. -/
def trivMods : List Module :=
  [Module.broadcaster ⟨["out"]⟩]

/-- A one-module network: no watched source ever emits anything, so the
targeted extrapolator's `while` loop never exits. -/
def trivNet : SignalSystem :=
  { modules := trivMods, history := ⟨0, 0⟩, signals := [] }

/-- The extrapolation formula exactly as the spec states it (§4.3 step 4),
kept separate from `loopTotal` (which embeds the code) so the two can be
compared: prefix of `offset` entries, `(n − offset) / period` full
periods, and an `(n − offset) % period` remainder from the start of the
cyclic segment. -/
def specExtrapolate (log : List SignalHistory) (offset n : Nat) :
    SignalHistory :=
  let period := log.length - offset
  let beforeLoop := sumHistories (log.take offset)
  let fullPeriods := (n - offset) / period
  let remainder := (n - offset) % period
  let periodSum := sumHistories (log.drop offset)
  let remainderSum := sumHistories ((log.drop offset).take remainder)
  { low := beforeLoop.low + periodSum.low * fullPeriods + remainderSum.low,
    high := beforeLoop.high + periodSum.high * fullPeriods + remainderSum.high }

/-- The six snapshots `compute_pulses` has logged on `cycleNet` at the
moment its cycle search succeeds (the press-7 snapshot matching index 2). -/
def cycleLog : List Snapshot :=
  (snapshotLog 99 6 cycleNet).getD []

/-- The module states of `cycleNet` after press 2 — the base point of the
4-cycle: presses 2, 6, 10, … all reach exactly these states. -/
def cycleMods : List Module :=
  [Module.broadcaster ⟨["a", "b1"]⟩,
   Module.flipFlop ⟨"a", SignalState.Low, ["c"]⟩,
   Module.flipFlop ⟨"x", SignalState.Low, ["c"]⟩,
   Module.conjunction
     ⟨"c", [("a", SignalState.Low), ("x", SignalState.Low)], ["g"]⟩,
   Module.flipFlop ⟨"b1", SignalState.Low, ["b2"]⟩,
   Module.flipFlop ⟨"b2", SignalState.High, ["w"]⟩,
   Module.flipFlop ⟨"x2", SignalState.Low, ["w"]⟩,
   Module.conjunction
     ⟨"w", [("b2", SignalState.High), ("x2", SignalState.Low)], ["g"]⟩,
   Module.conjunction
     ⟨"g", [("c", SignalState.High), ("w", SignalState.High)], ["out"]⟩]

/-- The module states of `cycleNet` after press 4 (and 8, 12, …): only
`g`'s map differs from the initial states. -/
def cycleMods4 : List Module :=
  [Module.broadcaster ⟨["a", "b1"]⟩,
   Module.flipFlop ⟨"a", SignalState.Low, ["c"]⟩,
   Module.flipFlop ⟨"x", SignalState.Low, ["c"]⟩,
   Module.conjunction
     ⟨"c", [("a", SignalState.Low), ("x", SignalState.Low)], ["g"]⟩,
   Module.flipFlop ⟨"b1", SignalState.Low, ["b2"]⟩,
   Module.flipFlop ⟨"b2", SignalState.Low, ["w"]⟩,
   Module.flipFlop ⟨"x2", SignalState.Low, ["w"]⟩,
   Module.conjunction
     ⟨"w", [("b2", SignalState.Low), ("x2", SignalState.Low)], ["g"]⟩,
   Module.conjunction
     ⟨"g", [("c", SignalState.High), ("w", SignalState.High)], ["out"]⟩]

deriving instance DecidableEq for Except

/-! ## Helper lemmas -/

/-- Componentwise sum of counter values. -/
def histAdd (a b : SignalHistory) : SignalHistory :=
  ⟨a.low + b.low, a.high + b.high⟩

theorem histAdd_zero (h : SignalHistory) : histAdd h ⟨0, 0⟩ = h := by
  cases h
  simp [histAdd]

theorem histAdd_assoc (a b c : SignalHistory) :
    histAdd (histAdd a b) c = histAdd a (histAdd b c) := by
  simp [histAdd, Nat.add_assoc]

theorem countSignal_split (h : SignalHistory) (s : Signal) :
    countSignal h s = histAdd h (countSignal ⟨0, 0⟩ s) := by
  cases h with
  | mk l hi => cases hs : s.state <;> simp [countSignal, hs, histAdd]

/-- The drain loop never reads the counters: running it with counters `h`
is running it with zeroed counters and adding `h` to the final counters. -/
theorem processQueue_shift {α : Type} (onSignal : α → Signal → α)
    (fuel : Nat) :
    ∀ (mods : List Module) (h : SignalHistory) (q : List Signal) (a : α),
      processQueue onSignal fuel ⟨mods, h, q⟩ a =
        (processQueue onSignal fuel ⟨mods, ⟨0, 0⟩, q⟩ a).map
          (fun p => (⟨p.1.modules, histAdd h p.1.history, p.1.signals⟩, p.2)) := by
  induction fuel with
  | zero => intro mods h q a; rfl
  | succ fuel ih =>
    intro mods h q a
    cases q with
    | nil =>
      simp only [processQueue, Option.map_some']
      rw [histAdd_zero]
    | cons sig rest =>
      rcases hdel : deliver sig mods with ⟨mods', produced⟩
      simp only [processQueue, hdel]
      rw [ih mods' (countSignal h sig) (rest ++ produced) (onSignal a sig),
        ih mods' (countSignal ⟨0, 0⟩ sig) (rest ++ produced) (onSignal a sig),
        Option.map_map]
      congr 1
      funext p
      simp only [Function.comp_apply]
      rw [countSignal_split h sig, histAdd_assoc]

/-- `press_button` with zeroed counters plus `h` equals `press_button`
with counters `h`. -/
theorem pressButton_shift (fuel : Nat) (mods : List Module)
    (h : SignalHistory) (q : List Signal) :
    pressButton fuel ⟨mods, h, q⟩ =
      (pressButton fuel ⟨mods, ⟨0, 0⟩, q⟩).map
        (fun s => ⟨s.modules, histAdd h s.history, s.signals⟩) := by
  unfold pressButton queueSignal
  rw [show ({ (⟨mods, h, q⟩ : SignalSystem) with
        signals := (⟨mods, h, q⟩ : SignalSystem).signals ++ [buttonSignal] }
      : SignalSystem) = ⟨mods, h, q ++ [buttonSignal]⟩ from rfl,
    show ({ (⟨mods, ⟨0, 0⟩, q⟩ : SignalSystem) with
        signals := (⟨mods, ⟨0, 0⟩, q⟩ : SignalSystem).signals ++ [buttonSignal] }
      : SignalSystem) = ⟨mods, ⟨0, 0⟩, q ++ [buttonSignal]⟩ from rfl,
    processQueue_shift, Option.map_map, Option.map_map]
  rfl

/-- `pressN` splits over addition of press counts. -/
theorem pressN_add (fuel : Nat) (a : Nat) :
    ∀ (b : Nat) (sys : SignalSystem),
      pressN fuel (a + b) sys = (pressN fuel a sys).bind (pressN fuel b) := by
  induction a with
  | zero =>
    intro b sys
    simp [pressN]
  | succ a ih =>
    intro b sys
    rw [show a + 1 + b = (a + b) + 1 from by omega]
    show (match pressButton fuel sys with
      | none => none
      | some sys' => pressN fuel (a + b) sys') = _
    cases hp : pressButton fuel sys with
    | none => simp [pressN, hp]
    | some sys' =>
      simp only [pressN, hp]
      rw [ih b sys']

/-- The counter shift lifted through `pressN`. -/
theorem pressN_shift (fuel : Nat) :
    ∀ (n : Nat) (mods : List Module) (h : SignalHistory) (q : List Signal),
      pressN fuel n ⟨mods, h, q⟩ =
        (pressN fuel n ⟨mods, ⟨0, 0⟩, q⟩).map
          (fun s => ⟨s.modules, histAdd h s.history, s.signals⟩) := by
  intro n
  induction n with
  | zero =>
    intro mods h q
    simp only [pressN, Option.map_some']
    rw [histAdd_zero]
  | succ n ih =>
    intro mods h q
    simp only [pressN]
    rw [pressButton_shift]
    cases hp : pressButton fuel ⟨mods, ⟨0, 0⟩, q⟩ with
    | none => rfl
    | some s =>
      simp only [Option.map_some']
      rw [ih s.modules (histAdd h s.history) s.signals]
      have hs : pressN fuel n s =
          (pressN fuel n ⟨s.modules, ⟨0, 0⟩, s.signals⟩).map
            (fun t => ⟨t.modules, histAdd s.history t.history, t.signals⟩) := by
        rw [show s = (⟨s.modules, s.history, s.signals⟩ : SignalSystem)
          from rfl]
        exact ih s.modules s.history s.signals
      rw [hs, Option.map_map]
      congr 1
      funext t
      simp only [Function.comp_apply]
      rw [histAdd_assoc]

/-! ## Concrete facts about `cycleNet`

`cycleNet` was built so that the module-state sequence has a two-press
transient before a four-press cycle: presses 2 and 6 reach the same module
states with different per-press counters, so the whole-snapshot search
first matches press 7 against press 3 (offset 2, period 4). -/

theorem cycleNet_two : pressN 99 2 cycleNet = some ⟨cycleMods, ⟨9, 8⟩, []⟩ := by
  decide

theorem cycleMods_four :
    pressN 99 4 ⟨cycleMods, ⟨0, 0⟩, []⟩ = some ⟨cycleMods, ⟨23, 11⟩, []⟩ := by
  decide

theorem cycleMods_two :
    pressN 99 2 ⟨cycleMods, ⟨0, 0⟩, []⟩ = some ⟨cycleMods4, ⟨12, 5⟩, []⟩ := by
  decide

/-- `4 k` presses from the cycle base point return to it, accumulating
`k` copies of the period counts `(23, 11)`. -/
theorem cycleMods_mul (k : Nat) :
    pressN 99 (4 * k) ⟨cycleMods, ⟨0, 0⟩, []⟩ =
      some ⟨cycleMods, ⟨23 * k, 11 * k⟩, []⟩ := by
  induction k with
  | zero => simp [pressN]
  | succ k ih =>
    rw [show 4 * (k + 1) = 4 * k + 4 from by ring, pressN_add, ih]
    show pressN 99 4 ⟨cycleMods, ⟨23 * k, 11 * k⟩, []⟩ = _
    rw [pressN_shift, cycleMods_four]
    simp only [Option.map_some']
    rw [show histAdd ⟨23 * k, 11 * k⟩ ⟨23, 11⟩ = ⟨23 * (k + 1), 11 * (k + 1)⟩
      from by simp [histAdd, Nat.mul_succ]]

/-! ## The claims -/

/-- C1: the claim says the cycle search of `compute_pulses` ignores the
aggregate counts, matching any two snapshots with identical per-module
states.  The code compares whole `(states, counts)` pairs: on `cycleNet`
the press-2 and press-6 snapshots of the actual log have identical
per-module states but counters `(6,4)` vs `(7,3)`, and the search run on
the press-6 snapshot against the log of presses 1–5 finds no match. -/
theorem c1_counts_in_equality_key :
    cycleLog.length = 6 ∧
    (cycleLog[1]?).map Prod.fst = (cycleLog[5]?).map Prod.fst ∧
    (cycleLog[1]?).map Prod.snd = some ⟨6, 4⟩ ∧
    (cycleLog[5]?).map Prod.snd = some ⟨7, 3⟩ ∧
    snapshotMatch (cycleLog.take 5) (cycleLog.getD 5 ([], ⟨0, 0⟩)) = none := by
  decide

/-- C2: the claim says `compute_pulses` uses `(1000 − offset) / period`
full periods and remainder `(1000 − offset) % period`.  The code divides
the full 1000 by the period: on `cycleNet` it finds offset 2, period 4 and
returns `loopTotal cycleLog 2 = (5759, 2758)` (250 full periods over the
log of presses 1–6), while the spec formula gives `(5748, 2752)`. -/
theorem c2_full_periods_formula :
    computePulses 1001 99 cycleNet = some 15883322 ∧
    loopTotal cycleLog 2 = ⟨5759, 2758⟩ ∧
    (5759 : Nat) * 2758 = 15883322 ∧
    specExtrapolate (cycleLog.map Prod.snd) 2 1000 = ⟨5748, 2752⟩ ∧
    ((⟨5759, 2758⟩ : SignalHistory) ≠ (⟨5748, 2752⟩ : SignalHistory)) := by
  decide

/-- C3: the claim says 1000 sequential `press_button` calls accumulate the
same totals that `compute_pulses` extrapolates.  On `cycleNet` the direct
totals are `(5748, 2752)` with product 15818496, but `compute_pulses`
returns 15883322. -/
theorem c3_direct_vs_extrapolator :
    (pressN 99 1000 cycleNet).map SignalSystem.history = some ⟨5748, 2752⟩ ∧
    computePulses 1001 99 cycleNet = some 15883322 ∧
    (15883322 : Nat) ≠ 5748 * 2752 := by
  refine ⟨?_, by decide, by decide⟩
  have h996 : pressN 99 996 (⟨cycleMods, ⟨9, 8⟩, []⟩ : SignalSystem) =
      some ⟨cycleMods, ⟨5736, 2747⟩, []⟩ := by
    rw [pressN_shift, show (996 : Nat) = 4 * 249 from by norm_num,
      cycleMods_mul]
    rfl
  have h2 : pressN 99 2 (⟨cycleMods, ⟨5736, 2747⟩, []⟩ : SignalSystem) =
      some ⟨cycleMods4, ⟨5748, 2752⟩, []⟩ := by
    rw [pressN_shift, cycleMods_two]
    rfl
  rw [show (1000 : Nat) = 2 + (996 + 2) from by norm_num, pressN_add,
    cycleNet_two]
  show (pressN 99 (996 + 2) (⟨cycleMods, ⟨9, 8⟩, []⟩ : SignalSystem)).map
    SignalSystem.history = _
  rw [pressN_add, h996]
  show (pressN 99 2 (⟨cycleMods, ⟨5736, 2747⟩, []⟩ : SignalSystem)).map
    SignalSystem.history = _
  rw [h2]
  rfl

/-- The watched source names hard-coded in the Rust `match`. -/
def ssName : String := "ss"

def fzName : String := "fz"

def mfName : String := "mf"

def fhName : String := "fh"

/-- C4: the claim says the targeted extrapolator returns the LCM of the
*first* press counts at which the watched nodes emit `High`.  On
`watchNet` the first `High` presses are 1 (ss), 4 (fz), 1 (mf), 1 (fh),
whose LCM is 4 — but the code overwrites each register on every `High`
emission and stops after press 4, returning `lcm (lcm 3 4) (lcm 3 3) =
12`. -/
theorem c4_counterexample :
    (traceN 99 4 watchNet).map (List.map (emitsHigh ssName)) =
      some [true, false, true, false] ∧
    (traceN 99 4 watchNet).map (List.map (emitsHigh fzName)) =
      some [false, false, false, true] ∧
    (traceN 99 4 watchNet).map (List.map (emitsHigh mfName)) =
      some [true, false, true, false] ∧
    (traceN 99 4 watchNet).map (List.map (emitsHigh fhName)) =
      some [true, false, true, false] ∧
    buttonPressesBeforeLowOutput 10 99 watchNet = some 12 ∧
    (12 : Nat) ≠ lcm (lcm 1 4) (lcm 1 1) := by
  decide

/-- C4 amended: the loop stops at the first press (here 4) by which every
watched node has emitted `High` at least once, and each register then
holds the press count of that node's *latest* `High` emission so far
(here ss ↦ 3, fz ↦ 4, mf ↦ 3, fh ↦ 3); the result is the nested LCM of
those latest counts. -/
theorem c4_lcm_of_latest_counts :
    (traceN 99 4 watchNet).map
        (fun t => (t.map (emitsHigh ssName), t.map (emitsHigh fzName),
          t.map (emitsHigh mfName), t.map (emitsHigh fhName))) =
      some ([true, false, true, false], [false, false, false, true],
        [true, false, true, false], [true, false, true, false]) ∧
    buttonPressesBeforeLowOutput 10 99 watchNet =
      some (lcm (lcm 3 4) (lcm 3 3)) := by
  decide

/-- One press of the trivial network, under the recording callback: with
fuel below 3 the drain exhausts, otherwise exactly the two `Low` signals
(button and broadcaster-to-sink) are counted and neither the modules, the
queue nor the registers change. -/
theorem trivNet_press (iF p : Nat) (h : SignalHistory) :
    pressButtonWith (recordHighSignal p) iF ⟨trivMods, h, []⟩
        ⟨none, none, none, none⟩ = none ∨
    pressButtonWith (recordHighSignal p) iF ⟨trivMods, h, []⟩
        ⟨none, none, none, none⟩ =
      some (⟨trivMods, ⟨h.low + 1 + 1, h.high⟩, []⟩,
        ⟨none, none, none, none⟩) := by
  obtain _ | _ | _ | n := iF
  · exact Or.inl rfl
  · exact Or.inl rfl
  · exact Or.inl rfl
  · exact Or.inr rfl

/-- The targeted extrapolator's loop never returns on `trivNet`: no
watched register is ever set, so the `while` condition never turns
false, whatever the fuel. -/
theorem trivNet_pressLoop (iF : Nat) :
    ∀ (oF p : Nat) (h : SignalHistory),
      pressLoop iF oF ⟨trivMods, h, []⟩ p ⟨none, none, none, none⟩ = none := by
  intro oF
  induction oF with
  | zero => intro p h; rfl
  | succ oF ih =>
    intro p h
    rcases trivNet_press iF (p + 1) h with hn | hs
    · simp only [pressLoop, optAnd, Option.isNone, if_true, hn]
    · simp only [pressLoop, optAnd, Option.isNone, if_true, hs]
      exact ih (p + 1) ⟨h.low + 1 + 1, h.high⟩

/-- C5 counterexample: the targeted extrapolator has no iteration ceiling
and does not terminate on every network — on `trivNet` (whose watched
sources never emit) no fuel budget whatsoever makes it return. -/
theorem c5_counterexample :
    ¬ ∃ (outerFuel innerFuel : Nat),
      (buttonPressesBeforeLowOutput outerFuel innerFuel trivNet).isSome := by
  rintro ⟨oF, iF, hsome⟩
  rw [show buttonPressesBeforeLowOutput oF iF trivNet =
        pressLoop iF oF ⟨trivMods, ⟨0, 0⟩, []⟩ 0 ⟨none, none, none, none⟩
      from rfl,
    trivNet_pressLoop] at hsome
  exact Bool.noConfusion hsome

/-- The `compute_pulses` loop is insensitive to the outer fuel beyond its
1000-snapshot ceiling: with a log of at most 999 entries, any two budgets
large enough to reach the ceiling agree. -/
theorem computeLoop_fuel (iF : Nat) :
    ∀ (f f' : Nat) (seen : List Snapshot) (sys : SignalSystem),
      seen.length ≤ 999 → 1000 ≤ f + seen.length →
      1000 ≤ f' + seen.length →
      computeLoop iF f sys seen = computeLoop iF f' sys seen := by
  intro f
  induction f with
  | zero =>
    intro f' seen sys hlen hf hf'
    omega
  | succ f ih =>
    intro f' seen sys hlen hf hf'
    obtain ⟨f'', rfl⟩ : ∃ f'', f' = f'' + 1 := ⟨f' - 1, by omega⟩
    rcases hg : getState sys with ⟨cur, sys'⟩
    simp only [computeLoop, hg]
    rcases hm : snapshotMatch seen cur with _ | offset
    · simp only []
      by_cases hc : (seen ++ [cur]).length = 1000
      · simp only [hc, if_true]
      · simp only [hc, if_false]
        rcases hp : pressButton iF sys' with _ | sys''
        · rfl
        · have hlen' : (seen ++ [cur]).length ≤ 999 := by
            simp only [List.length_append, List.length_singleton]
            simp only [List.length_append, List.length_singleton] at hc
            omega
          exact ih f'' (seen ++ [cur]) sys''
            hlen'
            (by simp only [List.length_append, List.length_singleton]; omega)
            (by simp only [List.length_append, List.length_singleton]; omega)
    · rfl

/-- C5 amended: the general extrapolator is bounded by construction —
its explicit 1000-snapshot ceiling makes every outer budget of at least
1000 iterations give the same answer — whereas the targeted extrapolator
has no ceiling at all (`c5_counterexample`). -/
theorem c5_general_ceiling (f f' iF : Nat) (sys : SignalSystem)
    (hf : 1000 ≤ f) (hf' : 1000 ≤ f') :
    computePulses f iF sys = computePulses f' iF sys := by
  unfold computePulses
  cases hp : pressButton iF sys with
  | none => rfl
  | some sys' =>
    exact computeLoop_fuel iF f f' [] sys'
      (by simp) (by simpa) (by simpa)

/-- Witness for `c5_general_ceiling` at concrete budgets. -/
theorem c5_general_ceiling_witness :
    (1000 ≤ 1000) ∧ (1000 ≤ 1234) ∧
    computePulses 1000 99 trivNet = computePulses 1234 99 trivNet :=
  ⟨by norm_num, by norm_num,
    c5_general_ceiling 1000 1234 99 trivNet (by norm_num) (by norm_num)⟩

/-- C6: `Conjunction::process` first records the incoming level under the
sender's name, then emits to every configured output a signal whose level
is `Low` exactly when every recorded level is `High` and `High`
otherwise; it emits unconditionally, one signal per configured output. -/
theorem c6_detector_rebroadcast (c : Conjunction) (s : Signal) :
    (c.process s).1.state = mapInsert s.source s.state c.state ∧
    (c.process s).2 = c.outputs.map (fun o =>
      { source := c.name, destination := o,
        state :=
          if (mapInsert s.source s.state c.state).all
              (fun p => p.2 == SignalState.High)
          then SignalState.Low else SignalState.High }) ∧
    (c.process s).2.length = c.outputs.length := by
  refine ⟨rfl, rfl, ?_⟩
  simp [Conjunction.process]

theorem mapKeys_cons (p : String × SignalState)
    (m : List (String × SignalState)) :
    mapKeys (p :: m) = p.1 :: mapKeys m := rfl

/-- `mapInsert` with a key that is already present only overwrites the
value: the key list is unchanged. -/
theorem mapInsert_keys_of_mem (k : String) (v : SignalState) :
    ∀ (m : List (String × SignalState)), k ∈ mapKeys m →
      mapKeys (mapInsert k v m) = mapKeys m := by
  intro m
  induction m with
  | nil => intro hmem; simp [mapKeys] at hmem
  | cons p rest ih =>
    intro hmem
    obtain ⟨k', v'⟩ := p
    rw [show mapInsert k v ((k', v') :: rest) =
        if k' = k then (k, v) :: rest else (k', v') :: mapInsert k v rest
      from rfl]
    by_cases hk : k' = k
    · rw [if_pos hk, mapKeys_cons, mapKeys_cons, hk]
    · rw [if_neg hk]
      have hmem' : k ∈ mapKeys rest := by
        rw [mapKeys_cons, List.mem_cons] at hmem
        rcases hmem with h1 | h2
        · exact absurd h1.symm hk
        · exact h2
      rw [mapKeys_cons, mapKeys_cons, ih hmem']

/-- C7 counterexample: a signal from an unregistered source grows a
detector's key set — and this occurs in a real parsed run: the line
`&broadcaster -> a` parses to a conjunction named `broadcaster` with no
registered inputs, and the very first button press inserts the synthetic
`button` key into its map. -/
theorem c7_counterexample :
    SignalSystem.fromLines ["&broadcaster -> a"] =
      some (Except.ok
        ⟨[Module.conjunction ⟨"broadcaster", [], ["a"]⟩], ⟨0, 0⟩, []⟩) ∧
    (pressButton 9
        ⟨[Module.conjunction ⟨"broadcaster", [], ["a"]⟩], ⟨0, 0⟩, []⟩).map
        (fun s => s.modules.map Module.getState) =
      some [("broadcaster", [("button", SignalState.Low)])] ∧
    mapKeys [("button", SignalState.Low)] ≠ mapKeys [] := by
  decide

/-- C7 amended: for every incoming signal whose source is already a key
of the detector's map — as holds for every signal a well-formed parsed
network can generate — `process` only overwrites values and preserves the
key set. -/
theorem c7_keys_fixed_of_registered (c : Conjunction) (s : Signal)
    (h : s.source ∈ mapKeys c.state) :
    mapKeys (c.process s).1.state = mapKeys c.state := by
  show mapKeys (mapInsert s.source s.state c.state) = mapKeys c.state
  exact mapInsert_keys_of_mem s.source s.state c.state h

/-- Witness for `c7_keys_fixed_of_registered`. -/
theorem c7_keys_fixed_witness :
    (("a" : String) ∈ mapKeys [("a", SignalState.Low)]) ∧
    mapKeys ((Conjunction.process
        ⟨"inv", [("a", SignalState.Low)], ["b"]⟩
        ⟨"a", "inv", SignalState.High⟩).1.state) =
      mapKeys [("a", SignalState.Low)] :=
  ⟨by decide,
    c7_keys_fixed_of_registered ⟨"inv", [("a", SignalState.Low)], ["b"]⟩
      ⟨"a", "inv", SignalState.High⟩ (by decide)⟩

/-- C8: a `High` input leaves a latch unchanged and emits nothing; two
consecutive `Low` inputs restore the latch exactly (the toggle is an
involution); each `Low` emits to every output a signal at the new
state's level (the state *is* the level: `High` when on, `Low` when
off). -/
theorem c8_latch_toggle (f : FlipFlop) (hi lo lo' : Signal)
    (hhi : hi.state = SignalState.High) (hlo : lo.state = SignalState.Low)
    (hlo' : lo'.state = SignalState.Low) :
    f.process hi = (f, []) ∧
    ((f.process lo).1.process lo').1 = f ∧
    (f.process lo).2 = f.outputs.map (fun o =>
      { source := f.name, destination := o,
        state := (f.process lo).1.state }) := by
  obtain ⟨nm, st, outs⟩ := f
  cases st <;> simp [FlipFlop.process, hhi, hlo, hlo']

/-- Witness for `c8_latch_toggle`. -/
theorem c8_latch_toggle_witness :
    ((⟨"x", "a", SignalState.High⟩ : Signal).state = SignalState.High) ∧
    ((⟨"x", "a", SignalState.Low⟩ : Signal).state = SignalState.Low) ∧
    ((⟨"y", "a", SignalState.Low⟩ : Signal).state = SignalState.Low) ∧
    (FlipFlop.process ⟨"a", SignalState.Low, ["b"]⟩
        ⟨"x", "a", SignalState.High⟩ =
      (⟨"a", SignalState.Low, ["b"]⟩, []) ∧
    ((FlipFlop.process ⟨"a", SignalState.Low, ["b"]⟩
        ⟨"x", "a", SignalState.Low⟩).1.process
          ⟨"y", "a", SignalState.Low⟩).1 = ⟨"a", SignalState.Low, ["b"]⟩ ∧
    (FlipFlop.process ⟨"a", SignalState.Low, ["b"]⟩
        ⟨"x", "a", SignalState.Low⟩).2 =
      (⟨"a", SignalState.Low, ["b"]⟩ : FlipFlop).outputs.map (fun o =>
        { source := (⟨"a", SignalState.Low, ["b"]⟩ : FlipFlop).name,
          destination := o,
          state := (FlipFlop.process ⟨"a", SignalState.Low, ["b"]⟩
            ⟨"x", "a", SignalState.Low⟩).1.state })) :=
  ⟨rfl, rfl, rfl,
    c8_latch_toggle ⟨"a", SignalState.Low, ["b"]⟩ ⟨"x", "a", SignalState.High⟩
      ⟨"x", "a", SignalState.Low⟩ ⟨"y", "a", SignalState.Low⟩ rfl rfl rfl⟩

/-- If no module bears the destination name, delivery changes nothing and
produces nothing. -/
theorem deliver_miss (sig : Signal) :
    ∀ (mods : List Module), (∀ m ∈ mods, m.getName ≠ sig.destination) →
      deliver sig mods = (mods, []) := by
  intro mods
  induction mods with
  | nil => intro _; rfl
  | cons m rest ih =>
    intro hmiss
    rw [show deliver sig (m :: rest) =
        if m.getName = sig.destination then
          ((m.process sig).1 :: rest, (m.process sig).2)
        else (m :: (deliver sig rest).1, (deliver sig rest).2)
      from rfl]
    rw [if_neg (hmiss m (List.mem_cons_self m rest)),
      ih (fun m' hm' => hmiss m' (List.mem_cons_of_mem m hm'))]

/-- C9: a dequeued signal whose destination names no module is counted
exactly once, according to its level; the modules are untouched, nothing
is enqueued, and the drain continues with the rest of the queue (the
callback still observes the signal). -/
theorem c9_unknown_destination {α : Type} (onSignal : α → Signal → α)
    (a : α) (fuel : Nat) (mods : List Module) (h : SignalHistory)
    (sig : Signal) (rest : List Signal)
    (hmiss : ∀ m ∈ mods, m.getName ≠ sig.destination) :
    processQueue onSignal (fuel + 1) ⟨mods, h, sig :: rest⟩ a =
      processQueue onSignal fuel ⟨mods, countSignal h sig, rest⟩
        (onSignal a sig) := by
  simp only [processQueue, deliver_miss sig mods hmiss]
  rw [List.append_nil]

/-- Witness for `c9_unknown_destination`. -/
theorem c9_unknown_destination_witness :
    (∀ m ∈ [Module.broadcaster ⟨["a"]⟩],
      Module.getName m ≠ (⟨"a", "out", SignalState.Low⟩ : Signal).destination) ∧
    processQueue (fun (u : Unit) _ => u) 3
        ⟨[Module.broadcaster ⟨["a"]⟩], ⟨0, 0⟩,
          [⟨"a", "out", SignalState.Low⟩]⟩ () =
      processQueue (fun (u : Unit) _ => u) 2
        ⟨[Module.broadcaster ⟨["a"]⟩],
          countSignal ⟨0, 0⟩ ⟨"a", "out", SignalState.Low⟩, []⟩ () :=
  ⟨by decide,
    c9_unknown_destination (fun (u : Unit) _ => u) () 2
      [Module.broadcaster ⟨["a"]⟩] ⟨0, 0⟩ ⟨"a", "out", SignalState.Low⟩ []
      (by decide)⟩

/-- A line whose arrow split does not give exactly two parts parses to an
`Err`. -/
theorem fromStr_no_arrow (s : String) (h : (splitArrow s).length ≠ 2) :
    Module.fromStr s = some (Except.error ("Invalid module line " ++ s)) := by
  unfold Module.fromStr
  rcases hs : splitArrow s with _ | ⟨x, _ | ⟨y, _ | ⟨z, t⟩⟩⟩
  · rfl
  · rfl
  · rw [hs] at h
    simp at h
  · rfl

/-- A two-part line whose trimmed label is nonempty, starts with neither
`%` nor `&`, and is not `broadcaster`, parses to an `Err`. -/
theorem fromStr_bad_label (s : String) (label out : List Char)
    (hs : splitArrow s = [label, out]) (c : Char) (nameChars : List Char)
    (htrim : trimChars label = c :: nameChars)
    (hc1 : c ≠ '%') (hc2 : c ≠ '&')
    (hbc : (⟨c :: nameChars⟩ : String) ≠ "broadcaster") :
    Module.fromStr s =
      some (Except.error
        ("Invalid module: " ++ (⟨c :: nameChars⟩ : String))) := by
  unfold Module.fromStr
  rw [hs]
  simp only [htrim]
  rw [if_neg hc1, if_neg hc2, if_neg hbc]

/-- The first erroneous line aborts the whole parse with its error. -/
theorem parseModules_error (bad : String) (e : String) (post : List String)
    (hbad : Module.fromStr bad = some (Except.error e)) :
    ∀ (pre : List String),
      (∀ l ∈ pre, ∃ m, Module.fromStr l = some (Except.ok m)) →
      parseModules (pre ++ bad :: post) = some (Except.error e) := by
  intro pre
  induction pre with
  | nil =>
    intro _
    simp only [List.nil_append, parseModules, hbad]
  | cons l pre ih =>
    intro hpre
    obtain ⟨m, hm⟩ := hpre l (List.mem_cons_self l pre)
    have hrest : parseModules (pre.append (bad :: post)) =
        some (Except.error e) :=
      ih (fun l' hl' => hpre l' (List.mem_cons_of_mem l hl'))
    simp only [List.cons_append, parseModules, hm, hrest]

/-- C10: a line missing the arrow separator, or carrying an invalid
(nonempty) module prefix, makes network construction fail with an `Err`
surfaced to the caller, fatal to the whole construction regardless of how
many well-formed lines surround it. -/
theorem c10_malformed_line_fatal (pre post : List String) (bad : String)
    (hpre : ∀ l ∈ pre, ∃ m, Module.fromStr l = some (Except.ok m))
    (hbad : (splitArrow bad).length ≠ 2 ∨
      (∃ label out c nameChars, splitArrow bad = [label, out] ∧
        trimChars label = c :: nameChars ∧ c ≠ '%' ∧ c ≠ '&' ∧
        (⟨c :: nameChars⟩ : String) ≠ "broadcaster")) :
    ∃ e, SignalSystem.fromLines (pre ++ bad :: post) =
      some (Except.error e) := by
  have herr : ∃ e, Module.fromStr bad = some (Except.error e) := by
    rcases hbad with h | ⟨label, out, c, nameChars, hs, ht, h1, h2, h3⟩
    · exact ⟨_, fromStr_no_arrow bad h⟩
    · exact ⟨_, fromStr_bad_label bad label out hs c nameChars ht h1 h2 h3⟩
  obtain ⟨e, he⟩ := herr
  refine ⟨e, ?_⟩
  unfold SignalSystem.fromLines
  rw [parseModules_error bad e post he pre hpre]

/-- The well-formed and malformed lines of the `c10` witness. -/
def goodLine : String := "broadcaster -> a"

def badLine : String := "garbage"

/-- Witness for `c10_malformed_line_fatal`: one good broadcaster line
followed by an arrowless line. -/
theorem c10_malformed_line_fatal_witness :
    (∀ l ∈ [goodLine], ∃ m, Module.fromStr l = some (Except.ok m)) ∧
    ((splitArrow badLine).length ≠ 2 ∨
      (∃ label out c nameChars, splitArrow badLine = [label, out] ∧
        trimChars label = c :: nameChars ∧ c ≠ '%' ∧ c ≠ '&' ∧
        (⟨c :: nameChars⟩ : String) ≠ "broadcaster")) ∧
    ∃ e, SignalSystem.fromLines ([goodLine] ++ badLine :: []) =
      some (Except.error e) := by
  have h1 : ∀ l ∈ [goodLine], ∃ m, Module.fromStr l = some (Except.ok m) := by
    intro l hl
    rw [List.mem_singleton] at hl
    subst hl
    exact ⟨Module.broadcaster ⟨["a"]⟩, by decide⟩
  have h2 : (splitArrow badLine).length ≠ 2 := by decide
  exact ⟨h1, Or.inl h2,
    c10_malformed_line_fatal [goodLine] [] badLine h1 (Or.inl h2)⟩

end Day20
